import Mathlib

/-!
Shallow embedding of the ReportZen admin credential bootstrap
(`src/unnamed/part_000`, a firebase-admin initialization module) and of the
`listUsersAction` server action (`src/src/actions/list-users.ts`).

External effects (environment variables, the file system, the firebase-admin
SDK) are modelled as explicit inputs gathered in `InitEnv`; JavaScript values
that the code inspects (JSON.parse results, custom-claim values, the result of
the `||`/`&&` chains) are modelled by small inductive types with JavaScript
truthiness.
-/

namespace ReportZen

/-- A JSON value as produced by `JSON.parse`. Numbers are modelled by `Int`
(no claim depends on fractional values). Duplicate object keys follow the
JavaScript rule: the last occurrence wins (see `Json.getField`). -/
inductive Json where
  | null
  | bool (b : Bool)
  | num (n : Int)
  | str (s : String)
  | arr (elems : List Json)
  | obj (fields : List (String × Json))

/-- `typeof x === 'object'` for a parsed JSON value: true for `null`,
arrays and objects. -/
def jsTypeofIsObject : Json → Bool
  | .null => true
  | .arr _ => true
  | .obj _ => true
  | _ => false

def Json.isNull : Json → Bool
  | .null => true
  | _ => false

/-- JavaScript property access `parsed.k` on a parsed JSON value: defined on
objects only (on arrays a non-index name yields `undefined`, modelled as
`none`). The last duplicate key wins, as in `JSON.parse`. -/
def Json.getField : Json → String → Option Json
  | .obj fields, k => (fields.reverse.find? (fun p => p.1 == k)).map Prod.snd
  | _, _ => none

/-- JavaScript truthiness of a parsed JSON value. -/
def jsTruthy : Json → Bool
  | .null => false
  | .bool b => b
  | .num n => n != 0
  | .str s => s != ""
  | .arr _ => true
  | .obj _ => true

/-- Truthiness of `parsed.k`: `undefined` (missing field) is falsy. -/
def fieldTruthy (j : Json) (k : String) : Bool :=
  match j.getField k with
  | some v => jsTruthy v
  | none => false

/-- The validation applied to a parsed service-account blob, the negation of
`typeof parsed !== 'object' || parsed === null || !parsed.project_id ||
!parsed.private_key || !parsed.client_email` (both occurrences in
`initializeFirebaseAdmin` use the same check). -/
def validServiceAccount (parsed : Json) : Bool :=
  jsTypeofIsObject parsed && !parsed.isNull &&
    fieldTruthy parsed "project_id" && fieldTruthy parsed "private_key" &&
    fieldTruthy parsed "client_email"

/-! ## Custom-claim values and user records (firebase-admin `UserRecord`) -/

/-- A JavaScript value stored in a custom claim. Arrays are modelled with
string elements, matching the `as string[]` cast applied at the only place an
array claim is consumed. -/
inductive ClaimVal where
  | boolV (b : Bool)
  | strV (s : String)
  | numV (n : Int)
  | nullV
  | arrV (elems : List String)
  | objV
deriving DecidableEq, Repr

def ClaimVal.truthy : ClaimVal → Bool
  | .boolV b => b
  | .strV s => s != ""
  | .numV n => n != 0
  | .nullV => false
  | .arrV _ => true
  | .objV => true

/-- `Array.isArray` on a claim value. -/
def ClaimVal.isArrayV : ClaimVal → Bool
  | .arrV _ => true
  | _ => false

structure UserMetadata where
  creationTime : String
  /-- Models `new Date(creationTime).getTime()`: the epoch milliseconds the
  provider timestamp string parses to. -/
  creationTimeMs : Int
  lastSignInTime : String
deriving DecidableEq, Repr

/-- A provider user record as consumed by `listUsersAction`: `customClaims` is
`undefined` (`none`) or an object, modelled as a key/value list. -/
structure UserRecord where
  uid : String
  email : Option String
  metadata : UserMetadata
  disabled : Bool
  customClaims : Option (List (String × ClaimVal))
deriving DecidableEq, Repr

/-- The authenticated client handle (`admin.auth()`). The directory it serves
and its failure mode stand for the remote provider state behind the opaque
SDK; `listUsers` below is its documented contract. -/
structure AuthHandle where
  directory : List UserRecord
  apiFailure : Option String
deriving DecidableEq, Repr

/-- The firebase-admin `listUsers(maxResults)` API, per its documented
contract (external SDK, not repository code): rejects with the provider
failure, or resolves with up to `maxResults` records of the directory. -/
def listUsers (auth : AuthHandle) (maxResults : Nat) : Except String (List UserRecord) :=
  match auth.apiFailure with
  | some e => .error e
  | none => .ok (auth.directory.take maxResults)

/-! ## Bootstrap state machine (`src/unnamed/part_000`) -/

/-- The module-level mutable state of the bootstrap module. -/
structure AdminState where
  adminAuthInstance : Option AuthHandle
  initializationError : Option String
  isInitialized : Bool
  initializedVia : Option String
deriving DecidableEq, Repr

/-- The state at module load, before `initializeFirebaseAdmin()` is called. -/
def initialState : AdminState :=
  { adminAuthInstance := none, initializationError := none,
    isInitialized := false, initializedVia := none }

def serviceAccountFilename : String :=
  "reportzen-mixd3-firebase-adminsdk-fbsvc-f006f10e8d.json"

def envVarKey : String := "FIREBASE_SERVICE_ACCOUNT_KEY"

/-- Outcome of `admin.initializeApp(...)`. -/
inductive InitAppOutcome where
  | success
  | duplicateApp (msg : String)
  | otherError (msg : String)

/-- The external world read by one run of `initializeFirebaseAdmin`. Parse
outcomes carry what `JSON.parse` returns (or the message it throws) on the
corresponding text. -/
structure InitEnv where
  /-- `process.env.FIREBASE_SERVICE_ACCOUNT_KEY` -/
  envVarValue : Option String
  /-- `JSON.parse(envVarValue)` outcome -/
  envParsed : Except String Json
  /-- `fs.existsSync(serviceAccountPath)` -/
  fileExists : Bool
  /-- `fs.readFileSync(serviceAccountPath, 'utf8')` outcome -/
  fileRead : Except String String
  /-- `JSON.parse(serviceAccountJson)` outcome on the file content -/
  fileParsed : Except String Json
  /-- `admin.apps.length` before `initializeApp` -/
  adminAppsCount : Nat
  /-- the auth service `admin.auth()` / `admin.apps[0].auth()` yields -/
  adminAuth : AuthHandle
  /-- outcome of `admin.initializeApp(...)` -/
  initAppOutcome : InitAppOutcome
  /-- `admin.apps.length` re-read inside the `'app/duplicate-app'` catch -/
  appsAtCatch : Nat

/-- `CRITICAL - Failed to parse service account JSON from FIREBASE_SERVICE_ACCOUNT_KEY. ...` -/
def envParseFailMsg (e : String) : String :=
  "CRITICAL - Failed to parse service account JSON from " ++ envVarKey ++
    ". Ensure it's valid, complete, single-line JSON. Error: " ++ e

/-- The message of the `Error` thrown when a parsed blob fails shape validation. -/
def missingFieldsMsg : String :=
  "Parsed JSON object is invalid or missing required fields (project_id, private_key, client_email)."

/-- File-path `SyntaxError` branch of the catch. -/
def fileParseFailMsg (e : String) : String :=
  "CRITICAL - Failed to parse service account JSON from " ++ serviceAccountFilename ++
    ". Ensure it's valid JSON. Error: " ++ e

/-- File-path non-`SyntaxError` branch of the catch. -/
def fileReadFailMsg (e : String) : String :=
  "CRITICAL - Error reading local " ++ serviceAccountFilename ++ ": " ++ e

/-- Recorded when neither method produced credentials. `path.resolve` is
modelled as prefixing `./`. -/
def noCredentialsMsg : String :=
  "CRITICAL - No valid service account credentials found. Cannot initialize. Checked environment variable '" ++
    envVarKey ++ "' and local file at '" ++ "./" ++ serviceAccountFilename ++ "'."

def dupNoAppMsg (e : String) : String :=
  "CRITICAL - Caught 'app/duplicate-app' error but no existing app found. Initialization failed. Error: " ++ e

def initAppFailMsg (src e : String) : String :=
  "CRITICAL - Error during admin.initializeApp() via " ++ src ++ ". Error: " ++ e

/-- JavaScript `s.trim()`: strip whitespace from both ends (executable model
over the character list). -/
def jsTrim (s : String) : String :=
  String.mk (((s.toList.dropWhile Char.isWhitespace).reverse.dropWhile Char.isWhitespace).reverse)

/-- Outcome of one credential-loading method: a recorded fatal error that
aborts initialization (`return` in the source), no credential (fall through),
or a validated credential with its source label. -/
inductive CredStep where
  | fatal (e : String)
  | skipped
  | got (parsed : Json) (source : String)

/-- Method 1: the environment variable. Mirrors
`if (envVarValue && envVarValue.trim() !== '' && envVarValue.trim() !== '{}')`
and the try/catch around `JSON.parse` plus shape validation (the validation
`throw` lands in the same catch). `envVarValue === ''` is falsy and its trim
is also `''`, so the guard reduces to the two trim tests. -/
def tryEnvVar (envVarValue : Option String) (envParsed : Except String Json) : CredStep :=
  match envVarValue with
  | none => .skipped
  | some v =>
    if jsTrim v ≠ "" ∧ jsTrim v ≠ "\x7b\x7d" then
      match envParsed with
      | .error e => .fatal (envParseFailMsg e)
      | .ok parsed =>
        if validServiceAccount parsed then .got parsed "environment variable"
        else .fatal (envParseFailMsg missingFieldsMsg)
    else .skipped

/-- Method 2: the local file. An empty (after trim) file is treated as not
found; a `JSON.parse` failure is a `SyntaxError` and gets the parse message;
the shape-validation `throw` is a plain `Error`, so it lands in the
`Error reading local ...` branch of the catch. -/
def tryFile (fileExists : Bool) (fileRead : Except String String)
    (fileParsed : Except String Json) : CredStep :=
  if fileExists then
    match fileRead with
    | .error e => .fatal (fileReadFailMsg e)
    | .ok content =>
      if jsTrim content = "" then .skipped
      else
        match fileParsed with
        | .error e => .fatal (fileParseFailMsg e)
        | .ok parsed =>
          if validServiceAccount parsed then
            .got parsed ("local file (" ++ serviceAccountFilename ++ ")")
          else .fatal (fileReadFailMsg missingFieldsMsg)
  else .skipped

/-- The tail of `initializeFirebaseAdmin` once a validated credential with
source label `src` is in hand: reuse an existing app if `admin.apps` is
non-empty, else call `initializeApp` and handle its outcome (including the
`'app/duplicate-app'` recovery, which re-reads `admin.apps.length`). -/
def finishInit (env : InitEnv) (s : AdminState) (src : String) : AdminState :=
  if env.adminAppsCount > 0 then
    { s with adminAuthInstance := some env.adminAuth,
             initializedVia := some src, initializationError := none }
  else
    match env.initAppOutcome with
    | .success =>
      { s with adminAuthInstance := some env.adminAuth,
               initializedVia := some src, initializationError := none }
    | .duplicateApp e =>
      if env.appsAtCatch > 0 then
        { s with adminAuthInstance := some env.adminAuth,
                 initializedVia := some src, initializationError := none }
      else
        { s with initializationError := some (dupNoAppMsg e),
                 adminAuthInstance := none }
    | .otherError e =>
      { s with initializationError := some (initAppFailMsg src e),
               adminAuthInstance := none }

/-- `initializeFirebaseAdmin()`: re-entry returns with the state untouched
(only logging); otherwise mark as attempted, run Method 1, then Method 2 only
when Method 1 produced no credential, record a failure when neither did, and
otherwise initialize the SDK. -/
def initializeFirebaseAdmin (env : InitEnv) (s : AdminState) : AdminState :=
  if s.isInitialized then s
  else
    let s1 := { s with isInitialized := true }
    match tryEnvVar env.envVarValue env.envParsed with
    | .fatal e => { s1 with initializationError := some e }
    | .got _ src => finishInit env s1 src
    | .skipped =>
      match tryFile env.fileExists env.fileRead env.fileParsed with
      | .fatal e => { s1 with initializationError := some e }
      | .got _ src => finishInit env s1 src
      | .skipped => { s1 with initializationError := some noCredentialsMsg }

/-- The module-load call `initializeFirebaseAdmin()` wrapped in try/catch:
the embedded function is total, so the state after module load is one run
from `initialState`. -/
def bootState (env : InitEnv) : AdminState :=
  initializeFirebaseAdmin env initialState

/-- The message `getAdminAuth` throws when a failure was recorded. -/
def accessFailedMessage (e : String) : String :=
  "Firebase Admin SDK access failed: " ++ e ++
    ". Check server startup logs for details. Common causes are missing, empty, or invalid service account credentials (env var 'FIREBASE_SERVICE_ACCOUNT_KEY' or local file '" ++
    serviceAccountFilename ++ "'). Please verify your setup according to the README.md."

/-- The message `getAdminAuth` throws when neither an instance nor an error is
recorded. -/
def noInstanceMessage : String :=
  "Firebase Admin SDK was not initialized successfully, but no specific error was recorded. This indicates a potential bug or race condition. Check server logs."

/-- `getAdminAuth`: throw (modelled as `.error`) on a recorded failure, throw
on a missing instance, else return the memoized instance. -/
def getAdminAuth (s : AdminState) : Except String AuthHandle :=
  match s.initializationError with
  | some e => .error (accessFailedMessage e)
  | none =>
    match s.adminAuthInstance with
    | some a => .ok a
    | none => .error noInstanceMessage

/-! ## `listUsersAction` (`src/src/actions/list-users.ts`) -/

/-- The value of the JavaScript expression
`!!userRecord.customClaims?.admin || (process.env.NEXT_PUBLIC_ADMIN_UID && userRecord.uid === process.env.NEXT_PUBLIC_ADMIN_UID)`:
a boolean, or (when the left disjunct is false) whatever falsy value the
`&&` chain short-circuits to — `undefined` when the env var is unset, the
empty string when it is set but empty. -/
inductive JsBoolish where
  | boolV (b : Bool)
  | undefV
  | strV (s : String)
deriving DecidableEq, Repr

/-- `customClaims?.k`: `undefined` when `customClaims` is `undefined` or the
key is absent. -/
def claimLookup (claims : Option (List (String × ClaimVal))) (k : String) : Option ClaimVal :=
  match claims with
  | none => none
  | some cs => (cs.find? (fun p => p.1 == k)).map Prod.snd

/-- The `isAdmin` expression of `listUsersAction` (see `JsBoolish`).
`adminUid` is `process.env.NEXT_PUBLIC_ADMIN_UID`. -/
def isAdminValue (adminUid : Option String) (rec : UserRecord) : JsBoolish :=
  let adminClaim : Bool :=
    match claimLookup rec.customClaims "admin" with
    | some v => v.truthy
    | none => false
  if adminClaim then .boolV true
  else
    match adminUid with
    | none => .undefV
    | some au => if au = "" then .strV "" else .boolV (rec.uid == au)

/-- `Array.isArray(customClaims?.allowedSections) ? ... as string[] : []`. -/
def allowedSectionsValue (rec : UserRecord) : List String :=
  match claimLookup rec.customClaims "allowedSections" with
  | some (.arrV xs) => xs
  | _ => []

/-- One element of the `users` array `listUsersAction` returns. -/
structure ListedUser where
  uid : String
  email : Option String
  creationTime : String
  /-- carried alongside the string, models `new Date(creationTime).getTime()` -/
  creationTimeMs : Int
  lastSignInTime : String
  disabled : Bool
  isAdmin : JsBoolish
  allowedSections : List String
deriving DecidableEq, Repr

/-- The per-record mapping inside `listUsersResult.users.map(...)`. -/
def toListedUser (adminUid : Option String) (rec : UserRecord) : ListedUser :=
  { uid := rec.uid
    email := rec.email
    creationTime := rec.metadata.creationTime
    creationTimeMs := rec.metadata.creationTimeMs
    lastSignInTime := rec.metadata.lastSignInTime
    disabled := rec.disabled
    isAdmin := isAdminValue adminUid rec
    allowedSections := allowedSectionsValue rec }

/-- The order the comparator
`(a, b) => new Date(b.creationTime).getTime() - new Date(a.creationTime).getTime()`
sorts into: descending creation time. -/
def userGe (a b : ListedUser) : Prop := b.creationTimeMs ≤ a.creationTimeMs

instance : DecidableRel userGe := fun a b =>
  inferInstanceAs (Decidable (b.creationTimeMs ≤ a.creationTimeMs))

instance : IsTotal ListedUser userGe :=
  ⟨fun a b => by
    unfold userGe
    exact le_total b.creationTimeMs a.creationTimeMs⟩

instance : IsTrans ListedUser userGe :=
  ⟨fun _ _ _ h1 h2 => le_trans h2 h1⟩

/-- The `ListUsersResult` interface; `users?` is optional, hence `Option`. -/
structure ListUsersResult where
  success : Bool
  message : String
  users : Option (List ListedUser)
deriving DecidableEq, Repr

def fetchSuccessMsg (n : Nat) : String :=
  "Successfully fetched " ++ toString n ++ " users."

/-- Default catch message (in French in the source). -/
def fetchFailMsg (e : String) : String :=
  "Erreur lors de la récupération des utilisateurs: " ++ e

/-- Catch message when the caught message includes the SDK-access marker. -/
def criticalFailMsg (e : String) : String :=
  "Erreur critique: Impossible d'initialiser Firebase Admin SDK. Vérifiez les logs du serveur. (" ++ e ++ ")"

/-- Whether the character list `pat` is a leading segment of `hay`. -/
def startsWithList : List Char → List Char → Bool
  | [], _ => true
  | _ :: _, [] => false
  | a :: as, b :: bs => a == b && startsWithList as bs

/-- Whether `pat` occurs as a contiguous segment of `hay`. -/
def hasSubList (pat hay : List Char) : Bool :=
  startsWithList pat hay ||
    match hay with
    | [] => false
    | _ :: t => hasSubList pat t

/-- JavaScript `s.includes(pat)` (executable model over character lists). -/
def jsIncludes (s pat : String) : Bool := hasSubList pat.toList s.toList

def accessFailedMarker : String := "Firebase Admin SDK access failed"

/-- The body of the catch block: build the user-facing failure result from
the caught error message. -/
def catchResult (msg : String) : ListUsersResult :=
  { success := false
    message := if jsIncludes msg accessFailedMarker then criticalFailMsg msg else fetchFailMsg msg
    users := none }

/-- `listUsersAction`: get the memoized auth handle (its throw is caught),
call `listUsers(1000)` (a rejection is caught), map each record to the result
shape, sort by creation time descending, and return a success result. The
in-place `Array.prototype.sort` with a consistent comparator is modelled by
`List.insertionSort` over `userGe`. -/
def listUsersAction (s : AdminState) (adminUid : Option String) : ListUsersResult :=
  match getAdminAuth s with
  | .error msg => catchResult msg
  | .ok adminAuth =>
    match listUsers adminAuth 1000 with
    | .error msg => catchResult msg
    | .ok records =>
      let users := (records.map (toListedUser adminUid)).insertionSort userGe
      { success := true
        message := fetchSuccessMsg users.length
        users := some users }

/-! ## Concrete worlds and records used by counterexamples and witnesses -/

/-- The state `initializeFirebaseAdmin` builds before dispatching on the
credential methods. -/
def attemptedState : AdminState := { initialState with isInitialized := true }

/-- A valid parsed service-account blob. -/
def goodCreds : Json :=
  .obj [("project_id", .str "p"), ("private_key", .str "k"), ("client_email", .str "e")]

/-- World where the environment variable holds text that is not JSON while a
valid service-account file is present. -/
def envBadJsonEnv : InitEnv :=
  { envVarValue := some "nope"
    envParsed := .error "Unexpected token"
    fileExists := true
    fileRead := .ok "\x7b\"project_id\":\"p\",\"private_key\":\"k\",\"client_email\":\"e\"\x7d"
    fileParsed := .ok goodCreds
    adminAppsCount := 0
    adminAuth := { directory := [], apiFailure := none }
    initAppOutcome := .success
    appsAtCatch := 0 }

/-- A parsed blob that contains all three required fields, but with an empty
`project_id`. -/
def emptyProjectCreds : Json :=
  .obj [("project_id", .str ""), ("private_key", .str "k"), ("client_email", .str "e")]

/-- The raw text of `emptyProjectCreds`. -/
def emptyProjectBlob : String :=
  "\x7b\"project_id\":\"\",\"private_key\":\"k\",\"client_email\":\"e\"\x7d"

/-- World where the environment variable holds `emptyProjectCreds` and no
local file exists. -/
def emptyProjectEnv : InitEnv :=
  { envVarValue := some emptyProjectBlob
    envParsed := .ok emptyProjectCreds
    fileExists := false
    fileRead := .error "ENOENT"
    fileParsed := .error "Unexpected end of JSON input"
    adminAppsCount := 0
    adminAuth := { directory := [], apiFailure := none }
    initAppOutcome := .success
    appsAtCatch := 0 }

/-- A user record with no custom claims. -/
def plainUser : UserRecord :=
  { uid := "u1"
    email := some "u1@example.com"
    metadata := { creationTime := "Thu, 01 Jan 2026 00:00:00 GMT"
                  creationTimeMs := 1767225600000
                  lastSignInTime := "Fri, 02 Jan 2026 00:00:00 GMT" }
    disabled := false
    customClaims := none }

/-- A later-created user record with an `admin` claim. -/
def adminUser : UserRecord :=
  { uid := "u2"
    email := some "u2@example.com"
    metadata := { creationTime := "Sat, 03 Jan 2026 00:00:00 GMT"
                  creationTimeMs := 1767398400000
                  lastSignInTime := "Sun, 04 Jan 2026 00:00:00 GMT" }
    disabled := false
    customClaims := some [("admin", .boolV true), ("allowedSections", .arrV ["rapport"])] }

/-- World where the environment variable holds valid credentials and the SDK
initializes against a directory of two users (older first). -/
def okEnv : InitEnv :=
  { envVarValue := some "\x7b\"project_id\":\"p\",\"private_key\":\"k\",\"client_email\":\"e\"\x7d"
    envParsed := .ok goodCreds
    fileExists := false
    fileRead := .error "ENOENT"
    fileParsed := .error "Unexpected end of JSON input"
    adminAppsCount := 0
    adminAuth := { directory := [plainUser, adminUser], apiFailure := none }
    initAppOutcome := .success
    appsAtCatch := 0 }

/-- The acceptance condition as the specification words it: the blob parses
to a non-null object containing the fields `project_id`, `private_key` and
`client_email` (mere presence). -/
def specClaimedAccepts (parsed : Json) : Bool :=
  jsTypeofIsObject parsed && !parsed.isNull &&
    (parsed.getField "project_id").isSome && (parsed.getField "private_key").isSome &&
    (parsed.getField "client_email").isSome

/-- The amended acceptance condition: a JSON object whose three required
fields are present with truthy values. -/
def specAmendedAccepts (parsed : Json) : Bool :=
  match parsed with
  | .obj _ =>
    (match parsed.getField "project_id" with | some v => jsTruthy v | none => false) &&
    (match parsed.getField "private_key" with | some v => jsTruthy v | none => false) &&
    (match parsed.getField "client_email" with | some v => jsTruthy v | none => false)
  | _ => false

/-! ## Shared structural lemmas about the bootstrap -/

/-- One unfolding of `bootState`: mark as attempted, then dispatch on the two
credential methods. -/
theorem bootState_eq (env : InitEnv) :
    bootState env =
      match tryEnvVar env.envVarValue env.envParsed with
      | .fatal e => { attemptedState with initializationError := some e }
      | .got _ src => finishInit env attemptedState src
      | .skipped =>
        match tryFile env.fileExists env.fileRead env.fileParsed with
        | .fatal e => { attemptedState with initializationError := some e }
        | .got _ src => finishInit env attemptedState src
        | .skipped => { attemptedState with initializationError := some noCredentialsMsg } := rfl

/-- `finishInit` either installs the handle with the error cleared, or records
an error with the handle null. -/
theorem finishInit_cases (env : InitEnv) (s : AdminState) (src : String) :
    (finishInit env s src).adminAuthInstance = some env.adminAuth ∧
      (finishInit env s src).initializationError = none ∧
      (finishInit env s src).initializedVia = some src
    ∨ ∃ e, (finishInit env s src).adminAuthInstance = none ∧
      (finishInit env s src).initializationError = some e := by
  by_cases h1 : env.adminAppsCount > 0
  · left; refine ⟨?_, ?_, ?_⟩ <;> simp [finishInit, h1]
  · cases ho : env.initAppOutcome with
    | success => left; refine ⟨?_, ?_, ?_⟩ <;> simp [finishInit, h1, ho]
    | duplicateApp e =>
      by_cases h2 : env.appsAtCatch > 0
      · left; refine ⟨?_, ?_, ?_⟩ <;> simp [finishInit, h1, ho, h2]
      · right
        exact ⟨dupNoAppMsg e, by simp [finishInit, h1, ho, h2], by simp [finishInit, h1, ho, h2]⟩
    | otherError e =>
      right
      exact ⟨initAppFailMsg src e, by simp [finishInit, h1, ho], by simp [finishInit, h1, ho]⟩

/-- Every run of the bootstrap ends with a handle and no error, or no handle
and a recorded error. -/
theorem bootState_cases (env : InitEnv) :
    (∃ a, (bootState env).adminAuthInstance = some a ∧
          (bootState env).initializationError = none)
    ∨ (∃ e, (bootState env).adminAuthInstance = none ∧
          (bootState env).initializationError = some e) := by
  rw [bootState_eq]
  cases hE : tryEnvVar env.envVarValue env.envParsed with
  | fatal e => right; exact ⟨e, by simp [attemptedState, initialState], by simp⟩
  | got p src =>
    rcases finishInit_cases env attemptedState src with ⟨h1, h2, _⟩ | ⟨e, h1, h2⟩
    · left; exact ⟨env.adminAuth, h1, h2⟩
    · right; exact ⟨e, h1, h2⟩
  | skipped =>
    cases hF : tryFile env.fileExists env.fileRead env.fileParsed with
    | fatal e => right; exact ⟨e, by simp [attemptedState, initialState], by simp⟩
    | got p src =>
      rcases finishInit_cases env attemptedState src with ⟨h1, h2, _⟩ | ⟨e, h1, h2⟩
      · left; exact ⟨env.adminAuth, h1, h2⟩
      · right; exact ⟨e, h1, h2⟩
    | skipped => right; exact ⟨noCredentialsMsg, by simp [attemptedState, initialState], by simp⟩

/-- The code's validation check agrees with the truthy-fields predicate. -/
theorem validServiceAccount_eq_amended (j : Json) :
    validServiceAccount j = specAmendedAccepts j := by
  cases j <;> rfl

/-! ## The claims -/

/-- C1 counterexample: the environment variable holds invalid JSON (so it does
not yield valid credentials) and a valid service-account file is present
(`tryFile` would accept it), yet the bootstrap stops with the env-var failure
recorded and no client handle: the local file is not tried next. -/
theorem c1_env_invalid_skips_file_counterexample :
    tryEnvVar envBadJsonEnv.envVarValue envBadJsonEnv.envParsed
        = .fatal (envParseFailMsg "Unexpected token")
    ∧ envBadJsonEnv.fileExists = true
    ∧ validServiceAccount goodCreds = true
    ∧ tryFile envBadJsonEnv.fileExists envBadJsonEnv.fileRead envBadJsonEnv.fileParsed
        = .got goodCreds ("local file (" ++ serviceAccountFilename ++ ")")
    ∧ (bootState envBadJsonEnv).adminAuthInstance = none
    ∧ (bootState envBadJsonEnv).initializationError = some (envParseFailMsg "Unexpected token") := by
  refine ⟨rfl, rfl, rfl, rfl, by decide, by decide⟩

/-- C1 amended: the bootstrap first consults the environment variable; the
local file is tried exactly when the variable is unset, blank, or a bare
`'{}'`; a set variable that fails JSON validation records a failure and stops
without consulting the file (the final state does not depend on any file
input); a validated credential proceeds to SDK initialization; and when the
file is consulted, its outcome (failure, credential, or nothing) determines
the final state. -/
theorem c1_bootstrap_sequence_amended (env : InitEnv) :
    (tryEnvVar env.envVarValue env.envParsed = .skipped ↔
      env.envVarValue = none ∨
        ∃ v, env.envVarValue = some v ∧ (jsTrim v = "" ∨ jsTrim v = "\x7b\x7d"))
    ∧ (∀ e, tryEnvVar env.envVarValue env.envParsed = .fatal e →
        bootState env = { attemptedState with initializationError := some e })
    ∧ (∀ p src, tryEnvVar env.envVarValue env.envParsed = .got p src →
        bootState env = finishInit env attemptedState src)
    ∧ (tryEnvVar env.envVarValue env.envParsed = .skipped →
        (∀ e, tryFile env.fileExists env.fileRead env.fileParsed = .fatal e →
            bootState env = { attemptedState with initializationError := some e })
        ∧ (∀ p src, tryFile env.fileExists env.fileRead env.fileParsed = .got p src →
            bootState env = finishInit env attemptedState src)
        ∧ (tryFile env.fileExists env.fileRead env.fileParsed = .skipped →
            bootState env =
              { attemptedState with initializationError := some noCredentialsMsg })) := by
  refine ⟨?_, ?_, ?_, ?_⟩
  · constructor
    · intro h
      cases hv : env.envVarValue with
      | none => exact Or.inl rfl
      | some v =>
        right
        refine ⟨v, rfl, ?_⟩
        by_cases hb : jsTrim v = ""
        · exact Or.inl hb
        by_cases hc : jsTrim v = "\x7b\x7d"
        · exact Or.inr hc
        exfalso
        rw [hv] at h
        simp only [tryEnvVar] at h
        rw [if_pos ⟨hb, hc⟩] at h
        cases he : env.envParsed with
        | error e => rw [he] at h; simp at h
        | ok parsed =>
          rw [he] at h
          by_cases h2 : validServiceAccount parsed <;> simp [h2] at h
    · intro h
      rcases h with h | ⟨v, hv, hor⟩
      · simp [tryEnvVar, h]
      · have hnc : ¬(jsTrim v ≠ "" ∧ jsTrim v ≠ "\x7b\x7d") := by
          rcases hor with h1 | h1 <;> simp [h1]
        simp [tryEnvVar, hv, if_neg hnc]
  · intro e h
    rw [bootState_eq, h]
  · intro p src h
    rw [bootState_eq, h]
  · intro hskip
    refine ⟨?_, ?_, ?_⟩
    · intro e h; rw [bootState_eq, hskip, h]
    · intro p src h; rw [bootState_eq, hskip, h]
    · intro h; rw [bootState_eq, hskip, h]

/-- C1 amended, witness: a fatal env-var failure fixes the final state. -/
theorem c1_bootstrap_sequence_amended_witness :
    bootState envBadJsonEnv
      = { attemptedState with initializationError := some (envParseFailMsg "Unexpected token") } :=
  (c1_bootstrap_sequence_amended envBadJsonEnv).2.1 (envParseFailMsg "Unexpected token") rfl

/-- C2: for every state reached by the bootstrap, `getAdminAuth` throws
exactly when a failure was recorded — the thrown message embeds the recorded
failure via the fixed template — and otherwise returns the memoized handle. -/
theorem c2_getAdminAuth_reports_recorded_failure (env : InitEnv) :
    (∀ e, (bootState env).initializationError = some e →
        getAdminAuth (bootState env) = .error (accessFailedMessage e))
    ∧ ((bootState env).initializationError = none →
        ∃ a, (bootState env).adminAuthInstance = some a ∧
          getAdminAuth (bootState env) = .ok a) := by
  constructor
  · intro e h
    simp [getAdminAuth, h]
  · intro h
    rcases bootState_cases env with ⟨a, h1, h2⟩ | ⟨e, h1, h2⟩
    · exact ⟨a, h1, by simp [getAdminAuth, h2, h1]⟩
    · rw [h] at h2; cases h2

/-- C2 witness: a recorded parse failure surfaces through `getAdminAuth`. -/
theorem c2_getAdminAuth_reports_recorded_failure_witness :
    getAdminAuth (bootState envBadJsonEnv)
      = .error (accessFailedMessage (envParseFailMsg "Unexpected token")) :=
  (c2_getAdminAuth_reports_recorded_failure envBadJsonEnv).1
    (envParseFailMsg "Unexpected token") (by decide)

/-- C3: `listUsersAction` is a total function of the bootstrap state and the
provider outcome (the embedded action never throws); every credential or
provider failure yields `success = false`, no `users`, and one of the two
descriptive catch messages built from the caught error; a successful call
yields `success = true` with the users array. -/
theorem c3_listUsersAction_captures_failures (s : AdminState) (adminUid : Option String) :
    (∀ msg, getAdminAuth s = .error msg →
        (listUsersAction s adminUid).success = false ∧
        (listUsersAction s adminUid).users = none ∧
        ((listUsersAction s adminUid).message = criticalFailMsg msg ∨
         (listUsersAction s adminUid).message = fetchFailMsg msg))
    ∧ (∀ a msg, getAdminAuth s = .ok a → listUsers a 1000 = .error msg →
        (listUsersAction s adminUid).success = false ∧
        (listUsersAction s adminUid).users = none ∧
        ((listUsersAction s adminUid).message = criticalFailMsg msg ∨
         (listUsersAction s adminUid).message = fetchFailMsg msg))
    ∧ (∀ a records, getAdminAuth s = .ok a → listUsers a 1000 = .ok records →
        (listUsersAction s adminUid).success = true ∧
        (listUsersAction s adminUid).users =
          some ((records.map (toListedUser adminUid)).insertionSort userGe)) := by
  refine ⟨?_, ?_, ?_⟩
  · intro msg h
    refine ⟨by simp [listUsersAction, h, catchResult], by simp [listUsersAction, h, catchResult], ?_⟩
    by_cases hm : jsIncludes msg accessFailedMarker
    · left; simp [listUsersAction, h, catchResult, hm]
    · right; simp [listUsersAction, h, catchResult, hm]
  · intro a msg h hl
    refine ⟨by simp [listUsersAction, h, hl, catchResult],
            by simp [listUsersAction, h, hl, catchResult], ?_⟩
    by_cases hm : jsIncludes msg accessFailedMarker
    · left; simp [listUsersAction, h, hl, catchResult, hm]
    · right; simp [listUsersAction, h, hl, catchResult, hm]
  · intro a records h hl
    exact ⟨by simp [listUsersAction, h, hl], by simp [listUsersAction, h, hl]⟩

/-- C3 witness: with the failed bootstrap of `envBadJsonEnv`, the action
returns a failure result object instead of throwing. -/
theorem c3_listUsersAction_captures_failures_witness :
    (listUsersAction (bootState envBadJsonEnv) none).success = false ∧
    (listUsersAction (bootState envBadJsonEnv) none).users = none ∧
    ((listUsersAction (bootState envBadJsonEnv) none).message
        = criticalFailMsg (accessFailedMessage (envParseFailMsg "Unexpected token")) ∨
     (listUsersAction (bootState envBadJsonEnv) none).message
        = fetchFailMsg (accessFailedMessage (envParseFailMsg "Unexpected token"))) :=
  (c3_listUsersAction_captures_failures (bootState envBadJsonEnv) none).1
    (accessFailedMessage (envParseFailMsg "Unexpected token")) rfl

/-- C4 counterexample: a blob that parses to a non-null object containing all
three required fields (so the claim says it is accepted) is rejected by the
code because `project_id` is the empty string (falsy), and the bootstrap
records a failure. -/
theorem c4_presence_only_validation_counterexample :
    specClaimedAccepts emptyProjectCreds = true
    ∧ validServiceAccount emptyProjectCreds = false
    ∧ emptyProjectEnv.envParsed = .ok emptyProjectCreds
    ∧ (bootState emptyProjectEnv).adminAuthInstance = none
    ∧ (bootState emptyProjectEnv).initializationError = some (envParseFailMsg missingFieldsMsg) :=
  ⟨rfl, rfl, rfl,
    by set_option maxRecDepth 4000 in decide,
    by set_option maxRecDepth 4000 in decide⟩

/-- C4 amended: a parsed blob is accepted iff it is a JSON object whose
`project_id`, `private_key` and `client_email` fields are present with truthy
values; a blob that reaches validation (from a non-blank, non-`'{}'`
environment variable, or from an existing non-empty file) and fails this
check causes a failure to be recorded and no client handle. -/
theorem c4_truthy_validation_amended :
    (∀ j, validServiceAccount j = specAmendedAccepts j)
    ∧ (∀ env v j, env.envVarValue = some v → jsTrim v ≠ "" → jsTrim v ≠ "\x7b\x7d" →
        env.envParsed = .ok j → specAmendedAccepts j = false →
        (bootState env).adminAuthInstance = none ∧
        (bootState env).initializationError = some (envParseFailMsg missingFieldsMsg))
    ∧ (∀ env c j, tryEnvVar env.envVarValue env.envParsed = .skipped →
        env.fileExists = true → env.fileRead = .ok c → jsTrim c ≠ "" →
        env.fileParsed = .ok j → specAmendedAccepts j = false →
        (bootState env).adminAuthInstance = none ∧
        (bootState env).initializationError = some (fileReadFailMsg missingFieldsMsg)) := by
  refine ⟨validServiceAccount_eq_amended, ?_, ?_⟩
  · intro env v j hv hb hc he hbad
    have hval : validServiceAccount j = false := by
      rw [validServiceAccount_eq_amended]; exact hbad
    have hE : tryEnvVar env.envVarValue env.envParsed
        = .fatal (envParseFailMsg missingFieldsMsg) := by
      rw [hv]
      simp only [tryEnvVar]
      rw [if_pos ⟨hb, hc⟩, he]
      simp [hval]
    rw [bootState_eq, hE]
    exact ⟨by simp [attemptedState, initialState], by simp⟩
  · intro env c j hskip hfe hfr hcne hfp hbad
    have hval : validServiceAccount j = false := by
      rw [validServiceAccount_eq_amended]; exact hbad
    have hF : tryFile env.fileExists env.fileRead env.fileParsed
        = .fatal (fileReadFailMsg missingFieldsMsg) := by
      rw [hfe]
      simp only [tryFile]
      rw [if_pos trivial, hfr]
      simp [hcne, hfp, hval]
    rw [bootState_eq, hskip, hF]
    exact ⟨by simp [attemptedState, initialState], by simp⟩

/-- C4 amended, witness: the empty-`project_id` blob from the environment
variable leaves a recorded failure and no handle. -/
theorem c4_truthy_validation_amended_witness :
    (bootState emptyProjectEnv).adminAuthInstance = none ∧
    (bootState emptyProjectEnv).initializationError = some (envParseFailMsg missingFieldsMsg) :=
  c4_truthy_validation_amended.2.1 emptyProjectEnv emptyProjectBlob emptyProjectCreds
    rfl (by decide) (by decide) rfl rfl

/-- C5: once the process-wide flag is set, a further call to
`initializeFirebaseAdmin` returns with the whole state unchanged (in
particular `adminAuthInstance`, `initializationError` and `initializedVia`). -/
theorem c5_init_reentry_noop (env : InitEnv) (s : AdminState)
    (h : s.isInitialized = true) :
    initializeFirebaseAdmin env s = s := by
  simp [initializeFirebaseAdmin, h]

/-- C5 witness: re-running on the state the bootstrap produced changes
nothing. -/
theorem c5_init_reentry_noop_witness :
    initializeFirebaseAdmin okEnv (bootState okEnv) = bootState okEnv :=
  c5_init_reentry_noop okEnv (bootState okEnv) (by decide)

/-- C6: after any possible run of the bootstrap from module load, a client
handle and a recorded failure are never present simultaneously. -/
theorem c6_instance_error_mutex (env : InitEnv) :
    ((bootState env).adminAuthInstance.isSome &&
      (bootState env).initializationError.isSome) = false := by
  rcases bootState_cases env with ⟨a, h1, h2⟩ | ⟨e, h1, h2⟩ <;> simp [h1, h2]

/-- C7 failing input: a user with no `admin` custom claim while
`NEXT_PUBLIC_ADMIN_UID` is unset. The `isAdmin` expression short-circuits to
JavaScript `undefined` — not the boolean `false` that the claim and the
`ListUsersResult` interface field declaration promise — and that value flows
unchanged into the result of a successful `listUsersAction` call. -/
theorem c7_isAdmin_undefined_at_failing_input :
    isAdminValue none plainUser = JsBoolish.undefV
    ∧ isAdminValue none plainUser ≠ JsBoolish.boolV false
    ∧ isAdminValue none plainUser ≠ JsBoolish.boolV true
    ∧ ((listUsersAction (bootState okEnv) none).users.map
        (fun us => us.map (fun u => u.isAdmin)))
      = some [JsBoolish.boolV true, JsBoolish.undefV] := by
  refine ⟨rfl, by decide, by decide, by set_option maxRecDepth 8000 in decide⟩

/-- C8: whenever `listUsersAction` returns a users array, it is sorted by
creation time in descending order (`userGe` relates each element to every
later one: the later element's timestamp is at most the earlier element's). -/
theorem c8_users_sorted_desc (s : AdminState) (adminUid : Option String)
    (us : List ListedUser) (h : (listUsersAction s adminUid).users = some us) :
    us.Sorted userGe := by
  unfold listUsersAction at h
  cases hA : getAdminAuth s with
  | error msg => rw [hA] at h; simp [catchResult] at h
  | ok a =>
    rw [hA] at h
    simp only [] at h
    cases hL : listUsers a 1000 with
    | error msg => rw [hL] at h; simp [catchResult] at h
    | ok records =>
      rw [hL] at h
      simp only [Option.some.injEq] at h
      rw [← h]
      exact List.sorted_insertionSort userGe _

/-- C8 witness: the concrete two-user directory comes back sorted newest
first. -/
theorem c8_users_sorted_desc_witness :
    List.Sorted userGe [toListedUser none adminUser, toListedUser none plainUser] :=
  c8_users_sorted_desc (bootState okEnv) none
    [toListedUser none adminUser, toListedUser none plainUser]
    (by set_option maxRecDepth 8000 in decide)

/-- C9: the action passes the literal bound 1000 to the provider, so a
returned users array never exceeds 1000 entries; its length is exactly the
minimum of 1000 and the provider directory size. -/
theorem c9_users_at_most_1000 (s : AdminState) (adminUid : Option String)
    (us : List ListedUser) (h : (listUsersAction s adminUid).users = some us) :
    us.length ≤ 1000 ∧
      ∃ a, getAdminAuth s = .ok a ∧ us.length = min 1000 a.directory.length := by
  unfold listUsersAction at h
  cases hA : getAdminAuth s with
  | error msg => rw [hA] at h; simp [catchResult] at h
  | ok a =>
    rw [hA] at h
    simp only [] at h
    cases hL : listUsers a 1000 with
    | error msg => rw [hL] at h; simp [catchResult] at h
    | ok records =>
      rw [hL] at h
      simp only [Option.some.injEq] at h
      have hrec : records = a.directory.take 1000 := by
        unfold listUsers at hL
        cases hf : a.apiFailure with
        | some e => rw [hf] at hL; cases hL
        | none => rw [hf] at hL; exact (Except.ok.injEq _ _).mp hL.symm
      have hlen : us.length = min 1000 a.directory.length := by
        rw [← h, (List.perm_insertionSort userGe _).length_eq, List.length_map, hrec,
          List.length_take]
      exact ⟨by rw [hlen]; exact min_le_left _ _, ⟨a, rfl, hlen⟩⟩

/-- C9 witness: the two-user directory yields two users, within the bound. -/
theorem c9_users_at_most_1000_witness :
    ([toListedUser none adminUser, toListedUser none plainUser] : List ListedUser).length ≤ 1000 ∧
      ∃ a, getAdminAuth (bootState okEnv) = .ok a ∧
        ([toListedUser none adminUser, toListedUser none plainUser] : List ListedUser).length
          = min 1000 a.directory.length :=
  c9_users_at_most_1000 (bootState okEnv) none
    [toListedUser none adminUser, toListedUser none plainUser]
    (by set_option maxRecDepth 8000 in decide)

/-- C10: every returned user arises from the per-record mapping, and that
mapping yields the empty array for `allowedSections` whenever the custom
claim is missing or is not an array — so `allowedSections` is always an
array. -/
theorem c10_allowedSections_defaults_empty :
    (∀ adminUid (rec : UserRecord),
      (claimLookup rec.customClaims "allowedSections" = none ∨
        ∃ v, claimLookup rec.customClaims "allowedSections" = some v ∧ v.isArrayV = false) →
      (toListedUser adminUid rec).allowedSections = [])
    ∧ (∀ s adminUid us, (listUsersAction s adminUid).users = some us →
        ∀ u ∈ us, ∃ rec, u = toListedUser adminUid rec) := by
  constructor
  · intro adminUid rec h
    show allowedSectionsValue rec = []
    unfold allowedSectionsValue
    rcases h with h | ⟨v, hv, hna⟩
    · rw [h]
    · rw [hv]
      cases v <;> simp_all [ClaimVal.isArrayV]
  · intro s adminUid us h u hu
    unfold listUsersAction at h
    cases hA : getAdminAuth s with
    | error msg => rw [hA] at h; simp [catchResult] at h
    | ok a =>
      rw [hA] at h
      simp only [] at h
      cases hL : listUsers a 1000 with
      | error msg => rw [hL] at h; simp [catchResult] at h
      | ok records =>
        rw [hL] at h
        simp only [Option.some.injEq] at h
        rw [← h] at hu
        rw [List.mem_insertionSort] at hu
        rcases List.mem_map.mp hu with ⟨rec, _, hrec⟩
        exact ⟨rec, hrec.symm⟩

/-- C10 witness: a user with no custom claims gets the empty sections array. -/
theorem c10_allowedSections_defaults_empty_witness :
    (toListedUser none plainUser).allowedSections = [] :=
  c10_allowedSections_defaults_empty.1 none plainUser (Or.inl (by decide))

end ReportZen
